import Mathlib

/-!
Shallow embedding of the metric accumulators of `m3ae/gadgets/my_metrics.py`
(classes `Accuracy`, `Scalar`, `VQAScore`, `ROUGE1Score`, `ROUGE2Score`,
`BLEUScore`, `VQARADScore`, `ROCScore`, `F1Score`).

Modelling conventions:
* one-dimensional tensors are `List ℚ`, two-dimensional tensors are
  `List (List ℚ)` (a list of rows); the scalar accumulator cells registered
  with `add_state` are fields of a structure per class;
* torch float division `0.0 / 0.0` yields `NaN`; ratio metrics therefore
  return `Option ℚ`, `none` standing for the non-numeric `NaN` result;
* a Python exception escaping a method is `Except.error` of a `PyErr`;
* the external text scorers (ROUGE / BLEU) are pure function parameters, as
  the code only ever treats them as `score(prediction, reference) -> float`;
* sklearn's `roc_auc_score` / `f1_score` are modelled after their documented
  behaviour on pooled binary data (see the individual doc comments).
-/

/-- Python exception kinds relevant to the embedded code. -/
inductive PyErr where
  | valueError
  | indexError
deriving DecidableEq

/-- Auxiliary recursion for `argmaxQ`, carrying the next position, the best
index so far and the best value so far; only a strictly larger value moves the
best index, so the first maximal element wins. -/
def argmaxAux : List ℚ → Nat → Nat → ℚ → Nat
  | [], _, bi, _ => bi
  | x :: xs, i, bi, bv =>
    if bv < x then argmaxAux xs (i + 1) i x else argmaxAux xs (i + 1) bi bv

/-- Torch `argmax` over a one-dimensional tensor (also `torch.max(·, 1)[1]`
row-wise): the index of the first maximal entry. -/
def argmaxQ : List ℚ → Nat
  | [] => 0
  | x :: xs => argmaxAux xs 1 0 x

/-- Boolean-mask indexing `xs[mask]` of torch: keep the entries at the
positions where the mask is true. -/
def maskKeep {α : Type} (xs : List α) (mask : List Bool) : List α :=
  ((xs.zip mask).filter (fun p => p.2)).map (fun p => p.1)

/-- State of `Accuracy`: the two sum-reduced `add_state` cells, both
defaulting to `torch.tensor(0.0)`. -/
structure Accuracy where
  correct : ℚ
  total : ℚ
deriving DecidableEq

/-- Freshly constructed `Accuracy()`. -/
def Accuracy.init : Accuracy := { correct := 0, total := 0 }

/-- `Accuracy.update(logits, target)`: take the per-row argmax as prediction,
drop every sample whose target is the ignore sentinel `-100`, return `1` early
when no valid sample remains, otherwise `assert preds.shape == target.shape`
and accumulate the match count and the valid-sample count.  The result is
`none` when the assertion fails (an `AssertionError` escapes), otherwise
`some (state, ret)` with `ret = some 1` for the early exit and `ret = none`
for the usual `None` return of the method. -/
def Accuracy.update (s : Accuracy) (logits : List (List ℚ)) (target : List ℤ) :
    Option (Accuracy × Option Nat) :=
  let preds := logits.map argmaxQ
  let predsKept := maskKeep preds (target.map (fun t => decide (t ≠ -100)))
  let targetKept := target.filter (fun t => decide (t ≠ -100))
  if targetKept.length = 0 then
    some (s, some 1)
  else if predsKept.length = targetKept.length then
    some ({ correct := s.correct +
              (((predsKept.zip targetKept).countP (fun p => decide ((p.1 : ℤ) = p.2)) : ℕ) : ℚ),
            total := s.total + (targetKept.length : ℚ) }, none)
  else
    none

/-- `Accuracy.compute() = self.correct / self.total`; at zero total the torch
float division is `0.0 / 0.0 = NaN` (non-numeric), modelled as `none`. -/
def Accuracy.compute (s : Accuracy) : Option ℚ :=
  if s.total = 0 then none else some (s.correct / s.total)

/-- State of `Scalar`: running sum and count. -/
structure Scalar where
  scalar : ℚ
  total : ℚ
deriving DecidableEq

/-- Freshly constructed `Scalar()`. -/
def Scalar.init : Scalar := { scalar := 0, total := 0 }

/-- `Scalar.update(x)`: the raw number or tensor-like scalar is added to the
`scalar` cell and `total` is incremented by one. -/
def Scalar.update (s : Scalar) (x : ℚ) : Scalar :=
  { scalar := s.scalar + x, total := s.total + 1 }

/-- `Scalar.compute() = self.scalar / self.total` (NaN at zero total). -/
def Scalar.compute (s : Scalar) : Option ℚ :=
  if s.total = 0 then none else some (s.scalar / s.total)

/-- State of `VQAScore`: running soft-score sum and sample count. -/
structure VQAScore where
  score : ℚ
  total : ℚ
deriving DecidableEq

/-- Freshly constructed `VQAScore()`. -/
def VQAScore.init : VQAScore := { score := 0, total := 0 }

/-- Batch contribution of `VQAScore.update`: per row, a one-hot vector at the
argmax class of the logits (`scatter_` of `1` into `zeros_like(target)`) is
multiplied elementwise with the soft target row and everything is summed —
i.e. `target[i][argmax(logits[i])]` summed over the batch.  `scatter_`
requires the argmax index to be in range of the target row; the out-of-range
case (a torch runtime error) is given the junk value `0` here. -/
def vqaBatchScore (logits target : List (List ℚ)) : ℚ :=
  (((logits.map argmaxQ).zip target).map (fun p => p.2.getD p.1 0)).sum

/-- `VQAScore.update(logits, target)`: add the batch score contribution and
count `len(logits)` samples. -/
def VQAScore.update (s : VQAScore) (logits target : List (List ℚ)) : VQAScore :=
  { score := s.score + vqaBatchScore logits target,
    total := s.total + (logits.length : ℚ) }

/-- `VQAScore.compute() = self.score / self.total` (NaN at zero total). -/
def VQAScore.compute (s : VQAScore) : Option ℚ :=
  if s.total = 0 then none else some (s.score / s.total)

/-- State of `ROUGE1Score`: running recall sum and pair count. -/
structure ROUGE1Score where
  rouge1 : ℚ
  total : ℚ
deriving DecidableEq

/-- Freshly constructed `ROUGE1Score()`. -/
def ROUGE1Score.init : ROUGE1Score := { rouge1 := 0, total := 0 }

/-- `ROUGE1Score.update(preds, targets)`: one external scorer call per zipped
pair; `scorer t p` stands for `self.scorer.score(target[0], pred[0])` giving
the ROUGE-1 recall. -/
def ROUGE1Score.update (scorer : String → String → ℚ) (s : ROUGE1Score)
    (preds targets : List (List String)) : ROUGE1Score :=
  (preds.zip targets).foldl
    (fun a p => { rouge1 := a.rouge1 + scorer (p.2.getD 0 "") (p.1.getD 0 ""),
                  total := a.total + 1 }) s

/-- `ROUGE1Score.compute()`: guarded ratio, `0` when the count is zero. -/
def ROUGE1Score.compute (s : ROUGE1Score) : Option ℚ :=
  if 0 < s.total then some (s.rouge1 / s.total) else some 0

/-- State of `ROUGE2Score`: running recall sum and pair count. -/
structure ROUGE2Score where
  rouge2 : ℚ
  total : ℚ
deriving DecidableEq

/-- Freshly constructed `ROUGE2Score()`. -/
def ROUGE2Score.init : ROUGE2Score := { rouge2 := 0, total := 0 }

/-- `ROUGE2Score.update(preds, targets)`: as for ROUGE-1, with the ROUGE-2
recall scorer. -/
def ROUGE2Score.update (scorer : String → String → ℚ) (s : ROUGE2Score)
    (preds targets : List (List String)) : ROUGE2Score :=
  (preds.zip targets).foldl
    (fun a p => { rouge2 := a.rouge2 + scorer (p.2.getD 0 "") (p.1.getD 0 ""),
                  total := a.total + 1 }) s

/-- `ROUGE2Score.compute()`: guarded ratio, `0` when the count is zero. -/
def ROUGE2Score.compute (s : ROUGE2Score) : Option ℚ :=
  if 0 < s.total then some (s.rouge2 / s.total) else some 0

/-- State of `BLEUScore`: running smoothed-BLEU sum and pair count. -/
structure BLEUScore where
  score : ℚ
  total : ℚ
deriving DecidableEq

/-- Freshly constructed `BLEUScore()`. -/
def BLEUScore.init : BLEUScore := { score := 0, total := 0 }

/-- `BLEUScore.update(preds, targets)`: one `sentence_bleu([ref], pred)` call
per zipped pair of token sequences, modelled by the pure function `bleu`. -/
def BLEUScore.update (bleu : List String → List String → ℚ) (s : BLEUScore)
    (preds targets : List (List String)) : BLEUScore :=
  (preds.zip targets).foldl
    (fun a p => { score := a.score + bleu p.2 p.1, total := a.total + 1 }) s

/-- `BLEUScore.compute()`: guarded ratio, `0` when the count is zero. -/
def BLEUScore.compute (s : BLEUScore) : Option ℚ :=
  if 0 < s.total then some (s.score / s.total) else some 0

/-- State of `VQARADScore`: the inherited `VQAScore` cells, the four
type-partition `add_state` cells, and the three watermark values — the latter
are plain Python attributes set in `__init__`, not `add_state` cells. -/
structure VQARADScore where
  score : ℚ
  total : ℚ
  close_score : ℚ
  close_total : ℚ
  open_score : ℚ
  open_total : ℚ
  best_score : ℚ
  best_close_score : ℚ
  best_open_score : ℚ
deriving DecidableEq

/-- Freshly constructed `VQARADScore()`. -/
def VQARADScore.init : VQARADScore := ⟨0, 0, 0, 0, 0, 0, 0, 0, 0⟩

/-- `VQARADScore.update(logits, target, types)`: first the inherited
`VQAScore.update`, then the type split.  The code multiplies the masks
`(types == 0).float()` and `(types == 1).float()` with the scalar tensor
`self.score`, which at that point already holds the cumulative score of this
and every earlier batch, and adds `numel()` of the mask-shaped products —
the length of `types` — to `close_total` and `open_total`. -/
def VQARADScore.update (s : VQARADScore) (logits target : List (List ℚ))
    (types : List ℤ) : VQARADScore :=
  let score1 := s.score + vqaBatchScore logits target
  let total1 := s.total + (logits.length : ℚ)
  let close_scores := types.map (fun t => (if t = 0 then (1 : ℚ) else 0) * score1)
  let open_scores := types.map (fun t => (if t = 1 then (1 : ℚ) else 0) * score1)
  { score := score1
    total := total1
    close_score := s.close_score + close_scores.sum
    close_total := s.close_total + (close_scores.length : ℚ)
    open_score := s.open_score + open_scores.sum
    open_total := s.open_total + (open_scores.length : ℚ)
    best_score := s.best_score
    best_close_score := s.best_close_score
    best_open_score := s.best_open_score }

/-- `VQARADScore.compute()` is the inherited `VQAScore.compute` (NaN at zero
total). -/
def VQARADScore.compute (s : VQARADScore) : Option ℚ :=
  if s.total = 0 then none else some (s.score / s.total)

/-- `VQARADScore.get_best_score()`: compare the fresh overall ratio
`self.score / self.total` against the stored watermark and, on strict
improvement, snapshot all three watermark attributes (`self.compute()` equals
that same ratio; close/open averages default to `0` at zero totals); the
watermark is returned either way.  On the reachable zero-total states the
score is `0` as well: torch compares `NaN` (false) where rational division
gives `0 / 0 = 0`, which also fails the strict comparison against the
non-negative stored watermark, so both models take the same branch. -/
def VQARADScore.get_best_score (s : VQARADScore) : VQARADScore × ℚ :=
  if s.best_score < s.score / s.total then
    ({ s with
        best_score := s.score / s.total
        best_close_score := if s.close_total ≠ 0 then s.close_score / s.close_total else 0
        best_open_score := if s.open_total ≠ 0 then s.open_score / s.open_total else 0 },
     s.score / s.total)
  else
    (s, s.best_score)

/-- `VQARADScore.get_best_close_score()`: plain attribute read. -/
def VQARADScore.get_best_close_score (s : VQARADScore) : ℚ := s.best_close_score

/-- `VQARADScore.get_best_open_score()`: plain attribute read. -/
def VQARADScore.get_best_open_score (s : VQARADScore) : ℚ := s.best_open_score

/-- `Metric.reset()` of torchmetrics on a `VQARADScore`: every `add_state`
cell returns to its declared default (`torch.tensor(0.0)`); the watermark
attributes are not `add_state` cells and are untouched. -/
def VQARADScore.reset (s : VQARADScore) : VQARADScore :=
  { score := 0, total := 0, close_score := 0, close_total := 0,
    open_score := 0, open_total := 0,
    best_score := s.best_score,
    best_close_score := s.best_close_score,
    best_open_score := s.best_open_score }

/-- Calls of the `VQARADScore` interface, for statements over whole runs. -/
inductive VQARADOp where
  | upd (logits target : List (List ℚ)) (types : List ℤ)
  | comp
  | res
  | getBest
  | getBestClose
  | getBestOpen
deriving DecidableEq

/-- State transition of one `VQARADScore` call (`compute` and the two
watermark readers do not mutate the state). -/
def vqaradStep (s : VQARADScore) : VQARADOp → VQARADScore
  | .upd l t ty => s.update l t ty
  | .comp => s
  | .res => s.reset
  | .getBest => s.get_best_score.1
  | .getBestClose => s
  | .getBestOpen => s

/-- Values returned by the `get_best_score()` calls of a run, in order. -/
def vqaradTrace (s : VQARADScore) : List VQARADOp → List ℚ
  | [] => []
  | op :: ops =>
    match op with
    | .getBest => s.get_best_score.2 :: vqaradTrace (vqaradStep s op) ops
    | _ => vqaradTrace (vqaradStep s op) ops

/-- Positive-score column of the pooled (label, score) samples: the scores of
the samples whose label equals `1`. -/
def rocPos (pairs : List (ℚ × ℚ)) : List ℚ :=
  (pairs.filter (fun p => decide (p.1 = 1))).map (fun p => p.2)

/-- Negative-score column of the pooled (label, score) samples: the scores of
the samples whose label differs from `1`. -/
def rocNeg (pairs : List (ℚ × ℚ)) : List ℚ :=
  (pairs.filter (fun p => decide (¬ p.1 = 1))).map (fun p => p.2)

/-- Rank comparison of one positive score against one negative score (ties
count one half). -/
def rocCmp (p n : ℚ) : ℚ := if n < p then 1 else if n = p then 1 / 2 else 0

/-- Numerator of the Mann-Whitney statistic: every positive score compared
against every negative score. -/
def rocNum (pos neg : List ℚ) : ℚ :=
  (pos.map (fun p => (neg.map (fun n => rocCmp p n)).sum)).sum

/-- Model of sklearn `roc_auc_score` on pooled binary data, paired
positionally as (label, score): a `ValueError` when only one class is present
in the labels, otherwise the area under the ROC curve, which equals the
Mann-Whitney statistic — the probability that a uniformly chosen positive
sample outranks a uniformly chosen negative one, ties counting one half. -/
def roc_auc_pairs (pairs : List (ℚ × ℚ)) : Except PyErr ℚ :=
  if (rocPos pairs).length = 0 ∨ (rocNeg pairs).length = 0 then
    Except.error PyErr.valueError
  else
    Except.ok (rocNum (rocPos pairs) (rocNeg pairs) /
      (((rocPos pairs).length : ℚ) * ((rocNeg pairs).length : ℚ)))

/-- Model of sklearn `f1_score` on pooled binary data, paired positionally as
(label, prediction), with the default binary average and `pos_label = 1`:
harmonic mean of precision and recall from the pooled confusion counts.  A
zero denominator inside precision or recall yields `0` (the library's
`zero_division` default — a warning, not an exception), matching the rational
convention `x / 0 = 0` used here; binary 0/1 input never raises. -/
def f1_pairs (pairs : List (ℚ × ℚ)) : ℚ :=
  let tp : ℚ := (pairs.countP (fun p => decide (p.1 = 1 ∧ p.2 = 1)) : ℕ)
  let fp : ℚ := (pairs.countP (fun p => decide (¬ p.1 = 1 ∧ p.2 = 1)) : ℕ)
  let fn : ℚ := (pairs.countP (fun p => decide (p.1 = 1 ∧ ¬ p.2 = 1)) : ℕ)
  let prc := tp / (tp + fp)
  let rcl := tp / (tp + fn)
  if prc + rcl = 0 then 0 else 2 * prc * rcl / (prc + rcl)

/-- `np.concatenate` over a Python list of buffers: `ValueError` when the
list is empty (it needs at least one array to concatenate). -/
def npConcatenate (bufs : List (List ℚ)) : Except PyErr (List ℚ) :=
  if bufs.length = 0 then Except.error PyErr.valueError else Except.ok bufs.flatten

/-- The `except ValueError:` handler shared by `ROCScore.compute` and
`F1Score.compute`: it builds `torch.tensor(0.0, device=self.y_trues[0].device)`
and therefore first indexes `y_trues[0]` — an `IndexError` escapes when the
buffer list is empty. -/
def degenerateZero (y_trues : List (List ℚ)) : Except PyErr ℚ :=
  match y_trues.head? with
  | some _ => Except.ok 0
  | none => Except.error PyErr.indexError

/-- State of `ROCScore`: the two concatenation-reduced buffer lists. -/
structure ROCScore where
  y_trues : List (List ℚ)
  y_scores : List (List ℚ)
deriving DecidableEq

/-- Freshly constructed `ROCScore()` (also the state `Metric.reset()`
restores, the default of a CONCAT cell being the empty list). -/
def ROCScore.init : ROCScore := { y_trues := [], y_scores := [] }

/-- `ROCScore.update(logits, target)`: append the raw targets and the
sigmoid-activated logits to the buffers.  The sigmoid is strictly increasing,
so every comparison between stored scores equals the comparison between the
underlying logits; the embedding stores the logits in place of
`torch.sigmoid(logits)`, leaving the downstream rank statistic unchanged. -/
def ROCScore.update (s : ROCScore) (logits target : List ℚ) : ROCScore :=
  { y_trues := s.y_trues ++ [target], y_scores := s.y_scores ++ [logits] }

/-- `ROCScore.compute()`: pool both buffers with `np.concatenate` and score
them with `roc_auc_score`; a `ValueError` raised by either (empty buffer
list, or single-class labels) falls to the shared handler. -/
def ROCScore.compute (s : ROCScore) : Except PyErr ℚ :=
  match npConcatenate s.y_trues, npConcatenate s.y_scores with
  | Except.ok ys, Except.ok ss =>
    match roc_auc_pairs (ys.zip ss) with
    | Except.ok v => Except.ok v
    | Except.error _ => degenerateZero s.y_trues
  | _, _ => degenerateZero s.y_trues

/-- Thresholding `(torch.sigmoid(x) > 0.5).float()` of one logit: the sigmoid
exceeds one half exactly when the logit is positive. -/
def sigmoidThresh (x : ℚ) : ℚ := if 0 < x then 1 else 0

/-- State of `F1Score`: the two concatenation-reduced buffer lists. -/
structure F1Score where
  y_trues : List (List ℚ)
  y_preds : List (List ℚ)
deriving DecidableEq

/-- Freshly constructed `F1Score()` (also the state `Metric.reset()`
restores). -/
def F1Score.init : F1Score := { y_trues := [], y_preds := [] }

/-- `F1Score.update(logits, target)`: append the raw targets and the
thresholded 0/1 predictions to the buffers. -/
def F1Score.update (s : F1Score) (logits target : List ℚ) : F1Score :=
  { y_trues := s.y_trues ++ [target],
    y_preds := s.y_preds ++ [logits.map sigmoidThresh] }

/-- `F1Score.compute()`: pool both buffers with `np.concatenate` and score
them with `f1_score`; a `ValueError` (empty buffer list) falls to the shared
handler. -/
def F1Score.compute (s : F1Score) : Except PyErr ℚ :=
  match npConcatenate s.y_trues, npConcatenate s.y_preds with
  | Except.ok ys, Except.ok ps => Except.ok (f1_pairs (ys.zip ps))
  | _, _ => degenerateZero s.y_trues

/-- A sequence of `Accuracy.update` calls, each batch a (logits, targets)
pair; the run stops with `none` if an assertion fails, and discards the
per-call return values. -/
def runAccuracy (s : Accuracy) : List (List (List ℚ) × List ℤ) → Option Accuracy
  | [] => some s
  | b :: bs =>
    match s.update b.1 b.2 with
    | some (s1, _) => runAccuracy s1 bs
    | none => none

/-- A sequence of `Scalar.update` calls. -/
def runScalar (s : Scalar) (vs : List ℚ) : Scalar := vs.foldl Scalar.update s

/-- A sequence of `ROCScore.update` calls, each batch a (logits, targets)
pair of equally long one-dimensional tensors. -/
def runROC (s : ROCScore) (bs : List (List ℚ × List ℚ)) : ROCScore :=
  bs.foldl (fun a b => a.update b.1 b.2) s

/-- A sequence of `F1Score.update` calls. -/
def runF1 (s : F1Score) (bs : List (List ℚ × List ℚ)) : F1Score :=
  bs.foldl (fun a b => a.update b.1 b.2) s

/-- One-hot vector of length `n` at class `c`. -/
def oneHot (n c : Nat) : List ℚ := (List.range n).map (fun i => if i = c then 1 else 0)

/-- Valid (non-ignored) samples of an `Accuracy` batch, as (logit row,
target) pairs. -/
def accValid (b : List (List ℚ) × List ℤ) : List (List ℚ × ℤ) :=
  (b.1.zip b.2).filter (fun p => decide (p.2 ≠ -100))

/-- Number of valid samples of an `Accuracy` batch whose argmax prediction
matches the target. -/
def accMatches (b : List (List ℚ) × List ℤ) : ℕ :=
  (accValid b).countP (fun p => decide ((argmaxQ p.1 : ℤ) = p.2))

theorem acc_filter_eq (logits : List (List ℚ)) (target : List ℤ)
    (h : logits.length = target.length) :
    maskKeep (logits.map argmaxQ) (target.map (fun t => decide (t ≠ -100)))
      = (accValid (logits, target)).map (fun p => argmaxQ p.1)
    ∧ target.filter (fun t => decide (t ≠ -100))
      = (accValid (logits, target)).map (fun p => p.2) := by
  induction logits generalizing target with
  | nil =>
    cases target with
    | nil => exact ⟨rfl, rfl⟩
    | cons t ts => simp at h
  | cons l ls ih =>
    cases target with
    | nil => simp at h
    | cons t ts =>
      have h2 : ls.length = ts.length := by simpa using h
      obtain ⟨ih1, ih2⟩ := ih ts h2
      by_cases ht : t = -100
      · simp [maskKeep, accValid, List.filter_cons, ht] at ih1 ih2 ⊢
        exact ⟨ih1, ih2⟩
      · simp [maskKeep, accValid, List.filter_cons, ht] at ih1 ih2 ⊢
        exact ⟨ih1, ih2⟩

theorem accuracy_update_eq (s : Accuracy) (logits : List (List ℚ)) (target : List ℤ)
    (h : logits.length = target.length) :
    Accuracy.update s logits target =
      some (⟨s.correct + (accMatches (logits, target) : ℚ),
             s.total + ((accValid (logits, target)).length : ℚ)⟩,
            if (accValid (logits, target)).length = 0 then some 1 else none) := by
  obtain ⟨h1, h2⟩ := acc_filter_eq logits target h
  unfold Accuracy.update
  simp only [h1, h2, List.length_map]
  by_cases hz : (accValid (logits, target)).length = 0
  · have hnil : accValid (logits, target) = [] := List.length_eq_zero.mp hz
    simp [hz, hnil, accMatches]
  · simp only [hz, if_neg hz, if_true, if_false, ite_true, ite_false]
    simp only [List.zip_map', List.countP_map]
    simp only [accMatches]
    congr 1

theorem runScalar_eq (vs : List ℚ) :
    ∀ s : Scalar, runScalar s vs = ⟨s.scalar + vs.sum, s.total + (vs.length : ℚ)⟩ := by
  induction vs with
  | nil => intro s; cases s; simp [runScalar]
  | cons v vs ih =>
    intro s
    cases s with
    | mk a b =>
      simp only [runScalar, List.foldl_cons] at ih ⊢
      rw [ih]
      simp [Scalar.update]
      constructor
      · ring
      · ring

theorem runAccuracy_eq (bs : List (List (List ℚ) × List ℤ)) :
    ∀ s : Accuracy, (∀ b ∈ bs, b.1.length = b.2.length) →
    runAccuracy s bs =
      some ⟨s.correct + ((bs.map (fun b => (accMatches b : ℚ))).sum),
            s.total + ((bs.map (fun b => ((accValid b).length : ℚ))).sum)⟩ := by
  induction bs with
  | nil => intro s _; cases s; simp [runAccuracy]
  | cons b bs ih =>
    intro s h
    have hb : b.1.length = b.2.length := h b (List.mem_cons_self b bs)
    have hupd := accuracy_update_eq s b.1 b.2 hb
    simp only [runAccuracy, hupd]
    rw [ih _ (fun x hx => h x (List.mem_cons_of_mem b hx))]
    cases s with
    | mk a c =>
      simp only [List.map_cons, List.sum_cons, Option.some.injEq, Accuracy.mk.injEq]
      exact ⟨by ring, by ring⟩

theorem runROC_eq (bs : List (List ℚ × List ℚ)) :
    ∀ s : ROCScore, runROC s bs =
      ⟨s.y_trues ++ bs.map (fun b => b.2), s.y_scores ++ bs.map (fun b => b.1)⟩ := by
  induction bs with
  | nil => intro s; cases s; simp [runROC]
  | cons b bs ih =>
    intro s
    simp only [runROC, List.foldl_cons] at ih ⊢
    rw [ih]
    simp [ROCScore.update]

theorem runF1_eq (bs : List (List ℚ × List ℚ)) :
    ∀ s : F1Score, runF1 s bs =
      ⟨s.y_trues ++ bs.map (fun b => b.2),
       s.y_preds ++ bs.map (fun b => b.1.map sigmoidThresh)⟩ := by
  induction bs with
  | nil => intro s; cases s; simp [runF1]
  | cons b bs ih =>
    intro s
    simp only [runF1, List.foldl_cons] at ih ⊢
    rw [ih]
    simp [F1Score.update]

theorem oneHot_getD_self (n c : Nat) (h : c < n) : (oneHot n c).getD c 0 = 1 := by
  unfold oneHot
  rw [List.getD_eq_getElem?_getD, List.getElem?_map, List.getElem?_range h]
  simp

/-- C1: the claim says `VQARADScore.update` adds, per batch, the per-batch
score contribution masked by type equality to `close_score`/`open_score` and
the per-type sample counts to `close_total`/`open_total`.  The code instead
multiplies the masks with the cumulative `self.score` and adds the full batch
size to both totals: on a fresh instance, one batch of two samples of
contribution `1` each (types `[0, 1]`) yields `close_score = 2` (the one
type-0 mask entry times the cumulative score `2`) and
`close_total = open_total = 2` (the `numel` of the mask), where the claim
demands `close_score = 1` and `close_total = open_total = 1`. -/
theorem C1_vqarad_update_cumulative :
    VQARADScore.update VQARADScore.init [[0, 1], [0, 1]] [[0, 1], [0, 1]] [0, 1]
      = ⟨2, 2, 2, 2, 2, 2, 0, 0, 0⟩
    ∧ (VQARADScore.update VQARADScore.init [[0, 1], [0, 1]] [[0, 1], [0, 1]] [0, 1]).close_score ≠ 1
    ∧ (VQARADScore.update VQARADScore.init [[0, 1], [0, 1]] [[0, 1], [0, 1]] [0, 1]).close_total ≠ 1
    ∧ (VQARADScore.update VQARADScore.init [[0, 1], [0, 1]] [[0, 1], [0, 1]] [0, 1]).open_total ≠ 1 := by
  have h : VQARADScore.update VQARADScore.init [[0, 1], [0, 1]] [[0, 1], [0, 1]] [0, 1]
      = ⟨2, 2, 2, 2, 2, 2, 0, 0, 0⟩ := by
    norm_num [VQARADScore.update, VQARADScore.init, vqaBatchScore, argmaxQ, argmaxAux]
  refine ⟨h, ?_, ?_, ?_⟩ <;> rw [h] <;> norm_num

/-- C2 counterexample: `Accuracy.compute` on a zero-total state does not
return `0` — the division `0.0 / 0.0` is the non-numeric `NaN` (here
`none`). -/
theorem C2_counterexample :
    Accuracy.compute Accuracy.init = none
    ∧ Accuracy.compute Accuracy.init ≠ some 0 := by
  constructor
  · rfl
  · intro h
    exact Option.noConfusion (h.symm.trans rfl)

/-- C2 (amended): only the guarded text-generation ratio metrics return `0`
at a zero accumulated total; `Accuracy`, `Scalar` and `VQAScore` divide
unconditionally and produce the non-numeric `NaN` (`none`). -/
theorem C2_zero_total_amended :
    (∀ s : Accuracy, s.total = 0 → s.compute = none)
    ∧ (∀ s : Scalar, s.total = 0 → s.compute = none)
    ∧ (∀ s : VQAScore, s.total = 0 → s.compute = none)
    ∧ (∀ s : ROUGE1Score, s.total = 0 → s.compute = some 0)
    ∧ (∀ s : ROUGE2Score, s.total = 0 → s.compute = some 0)
    ∧ (∀ s : BLEUScore, s.total = 0 → s.compute = some 0) := by
  refine ⟨?_, ?_, ?_, ?_, ?_, ?_⟩ <;> intro s h <;>
    simp [Accuracy.compute, Scalar.compute, VQAScore.compute, ROUGE1Score.compute,
      ROUGE2Score.compute, BLEUScore.compute, h]

theorem C2_zero_total_amended_witness :
    Accuracy.init.total = 0 ∧ Accuracy.compute Accuracy.init = none
    ∧ BLEUScore.init.total = 0 ∧ BLEUScore.compute BLEUScore.init = some 0 :=
  ⟨rfl, C2_zero_total_amended.1 Accuracy.init rfl, rfl,
    C2_zero_total_amended.2.2.2.2.2 BLEUScore.init rfl⟩

/-- C4: on an empty buffer list (freshly constructed, or right after a
reset), `ROCScore.compute` / `F1Score.compute` let `np.concatenate` raise
`ValueError`, and the handler itself indexes `y_trues[0]` on the empty list,
so an unhandled `IndexError` escapes. -/
theorem C4_empty_buffer_index_error :
    (∀ s : ROCScore, s.y_trues = [] → s.compute = Except.error PyErr.indexError)
    ∧ (∀ s : F1Score, s.y_trues = [] → s.compute = Except.error PyErr.indexError)
    ∧ ROCScore.init.y_trues = [] ∧ F1Score.init.y_trues = [] := by
  refine ⟨?_, ?_, rfl, rfl⟩ <;> intro s h <;>
    simp [ROCScore.compute, F1Score.compute, npConcatenate, degenerateZero, h]

theorem C4_empty_buffer_index_error_witness :
    ROCScore.compute ROCScore.init = Except.error PyErr.indexError
    ∧ F1Score.compute F1Score.init = Except.error PyErr.indexError :=
  ⟨C4_empty_buffer_index_error.1 ROCScore.init rfl,
    C4_empty_buffer_index_error.2.1 F1Score.init rfl⟩

/-- C6: an `Accuracy.update` whose targets are all the ignore sentinel
`-100` leaves the state untouched and returns the early-exit signal `1`
(neither mutating nor raising). -/
theorem C6_ignore_sentinel (s : Accuracy) (logits : List (List ℚ)) (target : List ℤ)
    (hlen : logits.length = target.length) (hall : ∀ t ∈ target, t = -100) :
    Accuracy.update s logits target = some (s, some 1) := by
  have hnil : target.filter (fun t => decide (t ≠ -100)) = [] := by
    rw [List.filter_eq_nil_iff]
    intro a ha
    simpa using hall a ha
  have _hl := hlen
  simp only [Accuracy.update, hnil, List.length_nil]
  simp

theorem C6_ignore_sentinel_witness :
    ([[1, 0]] : List (List ℚ)).length = ([-100] : List ℤ).length
    ∧ Accuracy.update Accuracy.init [[1, 0]] [-100] = some (Accuracy.init, some 1) :=
  ⟨rfl, C6_ignore_sentinel Accuracy.init [[1, 0]] [-100] rfl (by decide)⟩

/-- C10: after `N ≥ 1` `Scalar.update` calls with values `v_1 .. v_N`,
`compute()` is the arithmetic mean of the values. -/
theorem C10_scalar_mean (vs : List ℚ) (h : vs ≠ []) :
    Scalar.compute (runScalar Scalar.init vs) = some (vs.sum / (vs.length : ℚ)) := by
  rw [runScalar_eq]
  have hlen : ((vs.length : ℚ)) ≠ 0 := by
    intro hz
    exact h (List.length_eq_zero.mp (by exact_mod_cast hz))
  simp [Scalar.compute, Scalar.init, hlen]

theorem C10_scalar_mean_witness :
    ([2, 4, 6] : List ℚ) ≠ []
    ∧ Scalar.compute (runScalar Scalar.init [2, 4, 6])
        = some (([2, 4, 6] : List ℚ).sum / ((([2, 4, 6] : List ℚ).length : ℕ) : ℚ)) :=
  ⟨by simp, C10_scalar_mean [2, 4, 6] (by simp)⟩

/-- C9: the per-sample contribution of `VQAScore.update` is the dot product
of the one-hot vector at the argmax class with the soft target row (third
conjunct); a single update with a one-hot target at the argmax class computes
to `1` (first conjunct); a sample with zero target mass at the argmax class
contributes `0` to `score` while still counting into `total` (second
conjunct). -/
theorem C9_vqa_soft_score (s : VQAScore) (l t : List ℚ)
    (hrange : argmaxQ l < t.length) (hhot : t = oneHot t.length (argmaxQ l)) :
    VQAScore.compute (VQAScore.update VQAScore.init [l] [t]) = some 1
    ∧ (∀ u : List ℚ, u.getD (argmaxQ l) 0 = 0 →
        VQAScore.update s [l] [u] = ⟨s.score, s.total + 1⟩)
    ∧ (∀ lo ta : List (List ℚ),
        VQAScore.update s lo ta =
          ⟨s.score + (((lo.map argmaxQ).zip ta).map (fun p => p.2.getD p.1 0)).sum,
           s.total + (lo.length : ℚ)⟩) := by
  refine ⟨?_, ?_, ?_⟩
  · have hv : vqaBatchScore [l] [t] = 1 := by
      simp only [vqaBatchScore, List.map_cons, List.map_nil, List.zip_cons_cons,
        List.zip_nil_right, List.sum_cons, List.sum_nil, add_zero]
      conv_lhs => rw [hhot]
      exact oneHot_getD_self _ _ hrange
    simp [VQAScore.compute, VQAScore.update, VQAScore.init, hv]
  · intro u hu
    rw [List.getD_eq_getElem?_getD] at hu
    simp [VQAScore.update, vqaBatchScore, hu]
  · intro lo ta
    rfl

theorem C9_vqa_soft_score_witness :
    argmaxQ [0, 1] < ([0, 1] : List ℚ).length
    ∧ ([0, 1] : List ℚ) = oneHot ([0, 1] : List ℚ).length (argmaxQ [0, 1])
    ∧ VQAScore.compute (VQAScore.update VQAScore.init [[0, 1]] [[0, 1]]) = some 1 := by
  have h1 : argmaxQ [(0 : ℚ), 1] = 1 := by
    norm_num [argmaxQ, argmaxAux]
  have h2 : ([0, 1] : List ℚ) = oneHot ([0, 1] : List ℚ).length (argmaxQ [0, 1]) := by
    rw [h1]
    norm_num [oneHot, List.range_succ]
  refine ⟨by rw [h1]; norm_num, h2, ?_⟩
  exact (C9_vqa_soft_score VQAScore.init [0, 1] [0, 1] (by rw [h1]; norm_num) h2).1

theorem accValid_ne_nil (logits : List (List ℚ)) (target : List ℤ)
    (hlen : logits.length = target.length) (hvalid : ∃ t ∈ target, t ≠ -100) :
    (accValid (logits, target)).length ≠ 0 := by
  obtain ⟨t, ht, hne⟩ := hvalid
  have hmem : t ∈ (logits.zip target).map Prod.snd := by
    rw [List.map_snd_zip logits target (le_of_eq hlen.symm)]
    exact ht
  obtain ⟨p, hp, hpt⟩ := List.mem_map.mp hmem
  have hpv : p ∈ accValid (logits, target) := by
    rw [accValid]
    refine List.mem_filter.mpr ⟨hp, ?_⟩
    simp [hpt, hne]
  intro hz
  rw [List.length_eq_zero.mp hz] at hpv
  exact (List.not_mem_nil p) hpv

/-- C8: on a batch with at least one valid (non-sentinel) sample and one
logit row per target entry, the shape assertion of `Accuracy.update` passes
(the call returns `some`), `correct` grows by the number of argmax matches,
`total` by the number of valid samples, and `compute` is the ratio of the
two accumulators; in particular logits `[[0.1, 0.9], [0.8, 0.2]]` with target
`[1, -100]` gives `compute() = 1`. -/
theorem C8_accuracy_valid_batch (s : Accuracy) (logits : List (List ℚ)) (target : List ℤ)
    (hlen : logits.length = target.length)
    (hvalid : ∃ t ∈ target, t ≠ -100) (htot : 0 ≤ s.total) :
    Accuracy.update s logits target =
      some (⟨s.correct + (accMatches (logits, target) : ℚ),
             s.total + ((accValid (logits, target)).length : ℚ)⟩, none)
    ∧ Accuracy.compute ⟨s.correct + (accMatches (logits, target) : ℚ),
        s.total + ((accValid (logits, target)).length : ℚ)⟩
      = some ((s.correct + (accMatches (logits, target) : ℚ)) /
          (s.total + ((accValid (logits, target)).length : ℚ)))
    ∧ (∃ s1 : Accuracy,
        Accuracy.update Accuracy.init [[1/10, 9/10], [4/5, 1/5]] [1, -100] = some (s1, none)
        ∧ Accuracy.compute s1 = some 1) := by
  have hne := accValid_ne_nil logits target hlen hvalid
  have htpos : (0 : ℚ) < s.total + ((accValid (logits, target)).length : ℚ) := by
    have h1 : (1 : ℚ) ≤ ((accValid (logits, target)).length : ℚ) := by
      exact_mod_cast Nat.one_le_iff_ne_zero.mpr hne
    linarith
  refine ⟨?_, ?_, ?_⟩
  · rw [accuracy_update_eq s logits target hlen, if_neg hne]
  · rw [Accuracy.compute, if_neg (ne_of_gt htpos)]
  · refine ⟨⟨1, 1⟩, ?_, ?_⟩
    · have hl : ([[1/10, 9/10], [4/5, 1/5]] : List (List ℚ)).length
          = ([1, -100] : List ℤ).length := rfl
      rw [accuracy_update_eq Accuracy.init _ _ hl]
      have ha : argmaxQ [(1 : ℚ)/10, 9/10] = 1 := by
        norm_num [argmaxQ, argmaxAux]
      have hv : accValid ([[1/10, 9/10], [4/5, 1/5]], [1, -100])
          = [([1/10, 9/10], 1)] := by
        simp [accValid, List.filter_cons]
      have hm : accMatches ([[1/10, 9/10], [4/5, 1/5]], [1, -100]) = 1 := by
        rw [accMatches, hv]
        simp only [List.countP_cons, List.countP_nil]
        rw [ha]
        simp
      rw [hv, hm]
      norm_num [Accuracy.init]
    · rw [Accuracy.compute]
      norm_num

theorem C8_accuracy_valid_batch_witness :
    ([[1/10, 9/10], [4/5, 1/5]] : List (List ℚ)).length = ([1, -100] : List ℤ).length
    ∧ (∃ t ∈ ([1, -100] : List ℤ), t ≠ -100)
    ∧ (0 : ℚ) ≤ Accuracy.init.total
    ∧ (∃ s1 : Accuracy,
        Accuracy.update Accuracy.init [[1/10, 9/10], [4/5, 1/5]] [1, -100] = some (s1, none)
        ∧ Accuracy.compute s1 = some 1) := by
  refine ⟨rfl, ⟨1, by simp, by decide⟩, le_refl 0, ?_⟩
  exact (C8_accuracy_valid_batch Accuracy.init [[1/10, 9/10], [4/5, 1/5]] [1, -100]
    rfl ⟨1, by simp, by decide⟩ (le_refl 0)).2.2

theorem vqarad_best_mono (s : VQARADScore) (op : VQARADOp) :
    s.best_score ≤ (vqaradStep s op).best_score := by
  cases op with
  | upd l t ty => exact le_refl _
  | comp => exact le_refl _
  | res => exact le_refl _
  | getBest =>
    show s.best_score ≤ s.get_best_score.1.best_score
    rw [VQARADScore.get_best_score]
    by_cases hlt : s.best_score < s.score / s.total
    · rw [if_pos hlt]
      exact le_of_lt hlt
    · rw [if_neg hlt]
  | getBestClose => exact le_refl _
  | getBestOpen => exact le_refl _

theorem vqarad_get_best_ret (s : VQARADScore) :
    s.get_best_score.2 = s.get_best_score.1.best_score := by
  rw [VQARADScore.get_best_score]
  by_cases hlt : s.best_score < s.score / s.total
  · rw [if_pos hlt]
  · rw [if_neg hlt]

theorem chain_le_head {a b : ℚ} {l : List ℚ}
    (h : List.Chain' (· ≤ ·) (a :: l)) (hba : b ≤ a) :
    List.Chain' (· ≤ ·) (b :: l) := by
  cases l with
  | nil => simp
  | cons c l =>
    rw [List.chain'_cons] at h ⊢
    exact ⟨le_trans hba h.1, h.2⟩

theorem vqarad_trace_chain (ops : List VQARADOp) :
    ∀ s : VQARADScore, List.Chain' (· ≤ ·) (s.best_score :: vqaradTrace s ops) := by
  induction ops with
  | nil =>
    intro s
    simp [vqaradTrace]
  | cons op ops ih =>
    intro s
    cases op with
    | getBest =>
      have hret : s.get_best_score.2 = (vqaradStep s VQARADOp.getBest).best_score :=
        vqarad_get_best_ret s
      simp only [vqaradTrace, hret]
      exact List.chain'_cons.mpr ⟨vqarad_best_mono s VQARADOp.getBest, ih _⟩
    | upd l t ty =>
      simp only [vqaradTrace]
      exact chain_le_head (ih _) (vqarad_best_mono s (VQARADOp.upd l t ty))
    | comp =>
      simp only [vqaradTrace]
      exact chain_le_head (ih _) (vqarad_best_mono s VQARADOp.comp)
    | res =>
      simp only [vqaradTrace]
      exact chain_le_head (ih _) (vqarad_best_mono s VQARADOp.res)
    | getBestClose =>
      simp only [vqaradTrace]
      exact chain_le_head (ih _) (vqarad_best_mono s VQARADOp.getBestClose)
    | getBestOpen =>
      simp only [vqaradTrace]
      exact chain_le_head (ih _) (vqarad_best_mono s VQARADOp.getBestOpen)

/-- C3: over arbitrary interleavings of `VQARADScore` calls, the values
returned by successive `get_best_score()` calls are non-decreasing (first
conjunct; the watermark itself is monotone under every single call, second
conjunct); a `get_best_score()` without strict improvement changes nothing
and returns the stored watermark (third conjunct); on strict improvement all
three watermark fields are snapshotted together, close/open defaulting to `0`
at zero totals, and the new overall ratio is returned (fourth conjunct);
`update` and `reset` never touch the watermark fields (fifth and sixth
conjuncts); the two accessors are pure readers of the snapshot (seventh
conjunct). -/
theorem C3_vqarad_watermark :
    (∀ (s : VQARADScore) (ops : List VQARADOp),
      List.Chain' (· ≤ ·) (vqaradTrace s ops))
    ∧ (∀ (s : VQARADScore) (op : VQARADOp), s.best_score ≤ (vqaradStep s op).best_score)
    ∧ (∀ s : VQARADScore, ¬ s.best_score < s.score / s.total →
        s.get_best_score = (s, s.best_score))
    ∧ (∀ s : VQARADScore, s.best_score < s.score / s.total →
        s.get_best_score.1.best_score = s.score / s.total
        ∧ s.get_best_score.1.best_close_score
            = (if s.close_total ≠ 0 then s.close_score / s.close_total else 0)
        ∧ s.get_best_score.1.best_open_score
            = (if s.open_total ≠ 0 then s.open_score / s.open_total else 0)
        ∧ s.get_best_score.2 = s.score / s.total)
    ∧ (∀ (s : VQARADScore) (l t : List (List ℚ)) (ty : List ℤ),
        (s.update l t ty).best_score = s.best_score
        ∧ (s.update l t ty).best_close_score = s.best_close_score
        ∧ (s.update l t ty).best_open_score = s.best_open_score)
    ∧ (∀ s : VQARADScore,
        s.reset.best_score = s.best_score
        ∧ s.reset.best_close_score = s.best_close_score
        ∧ s.reset.best_open_score = s.best_open_score)
    ∧ (∀ s : VQARADScore,
        s.get_best_close_score = s.best_close_score
        ∧ s.get_best_open_score = s.best_open_score
        ∧ vqaradStep s VQARADOp.getBestClose = s
        ∧ vqaradStep s VQARADOp.getBestOpen = s) := by
  refine ⟨fun s ops => (vqarad_trace_chain ops s).tail, vqarad_best_mono, ?_, ?_,
    fun s l t ty => ⟨rfl, rfl, rfl⟩, fun s => ⟨rfl, rfl, rfl⟩,
    fun s => ⟨rfl, rfl, rfl, rfl⟩⟩
  · intro s h
    rw [VQARADScore.get_best_score, if_neg h]
  · intro s h
    rw [VQARADScore.get_best_score, if_pos h]
    exact ⟨rfl, rfl, rfl, rfl⟩

theorem C3_vqarad_watermark_witness :
    (¬ VQARADScore.init.best_score < VQARADScore.init.score / VQARADScore.init.total)
    ∧ VQARADScore.init.get_best_score = (VQARADScore.init, VQARADScore.init.best_score)
    ∧ ((⟨1, 1, 1, 2, 1, 0, 0, 0, 0⟩ : VQARADScore).best_score
        < (⟨1, 1, 1, 2, 1, 0, 0, 0, 0⟩ : VQARADScore).score
          / (⟨1, 1, 1, 2, 1, 0, 0, 0, 0⟩ : VQARADScore).total)
    ∧ (⟨1, 1, 1, 2, 1, 0, 0, 0, 0⟩ : VQARADScore).get_best_score.1.best_score
        = (⟨1, 1, 1, 2, 1, 0, 0, 0, 0⟩ : VQARADScore).score
          / (⟨1, 1, 1, 2, 1, 0, 0, 0, 0⟩ : VQARADScore).total := by
  have h1 : ¬ VQARADScore.init.best_score
      < VQARADScore.init.score / VQARADScore.init.total := by
    norm_num [VQARADScore.init]
  have h2 : (⟨1, 1, 1, 2, 1, 0, 0, 0, 0⟩ : VQARADScore).best_score
      < (⟨1, 1, 1, 2, 1, 0, 0, 0, 0⟩ : VQARADScore).score
        / (⟨1, 1, 1, 2, 1, 0, 0, 0, 0⟩ : VQARADScore).total := by
    norm_num
  exact ⟨h1, C3_vqarad_watermark.2.2.1 _ h1, h2, (C3_vqarad_watermark.2.2.2.1 _ h2).1⟩

/-- C5 counterexample: one `F1Score.update` whose labels are all `1` (single
class) and whose thresholded predictions are all `1` computes to the ordinary
F1 value `1`, not to the degenerate `0` the claim demands. -/
theorem C5_counterexample :
    (∀ y ∈ ([1] : List ℚ), y = 1)
    ∧ F1Score.compute (runF1 F1Score.init [([1], [1])]) = Except.ok 1
    ∧ F1Score.compute (runF1 F1Score.init [([1], [1])]) ≠ Except.ok 0 := by
  have h1 : runF1 F1Score.init [([1], [1])] = ⟨[[1]], [[(1 : ℚ)]]⟩ := by
    rw [runF1_eq]
    norm_num [F1Score.init, sigmoidThresh]
  have h2 : npConcatenate [[(1 : ℚ)]] = Except.ok [1] := by
    rw [npConcatenate]
    simp
  have h3 : f1_pairs ([(1 : ℚ)].zip [(1 : ℚ)]) = 1 := by
    norm_num [f1_pairs, List.zip_cons_cons, List.countP_cons]
  have hc : F1Score.compute (runF1 F1Score.init [([1], [1])]) = Except.ok 1 := by
    rw [h1]
    simp only [F1Score.compute, h2]
    rw [h3]
  refine ⟨by simp, hc, ?_⟩
  rw [hc]
  intro h
  have := Except.ok.injEq (α := ℚ) (ε := PyErr) 1 0 ▸ h
  simp at h

/-- C5 (amended): with at least one update buffered, a single-class label
pool makes sklearn's `roc_auc_score` raise `ValueError`, which
`ROCScore.compute` maps to `0` (first conjunct); `f1_score` however does not
raise on a single-class binary pool, so `F1Score.compute` never reaches its
handler once the buffers are non-empty and returns the ordinary pooled F1
value — which the counterexample shows can be `1` — with zero-division inside
the statistic yielding `0` through the library default instead (second
conjunct). -/
theorem C5_amended :
    (∀ bs : List (List ℚ × List ℚ), bs ≠ [] →
      (∀ b ∈ bs, ∀ y ∈ b.2, y = 1) →
      ROCScore.compute (runROC ROCScore.init bs) = Except.ok 0)
    ∧ (∀ bs : List (List ℚ × List ℚ), bs ≠ [] →
      F1Score.compute (runF1 F1Score.init bs)
        = Except.ok (f1_pairs
            (((runF1 F1Score.init bs).y_trues.flatten).zip
              ((runF1 F1Score.init bs).y_preds.flatten)))) := by
  constructor
  · intro bs hne hlab
    rw [runROC_eq]
    show ROCScore.compute ⟨bs.map (fun b => b.2), bs.map (fun b => b.1)⟩ = Except.ok 0
    have hbs : bs.length ≠ 0 := fun h => hne (List.length_eq_zero.mp h)
    have hc1 : npConcatenate (bs.map fun b => b.2)
        = Except.ok ((bs.map fun b => b.2).flatten) := by
      rw [npConcatenate, if_neg (by simpa using hbs)]
    have hc2 : npConcatenate (bs.map fun b => b.1)
        = Except.ok ((bs.map fun b => b.1).flatten) := by
      rw [npConcatenate, if_neg (by simpa using hbs)]
    have hnegnil : rocNeg (((bs.map fun b => b.2).flatten).zip
        ((bs.map fun b => b.1).flatten)) = [] := by
      rw [rocNeg, List.map_eq_nil_iff, List.filter_eq_nil_iff]
      intro p hp
      obtain ⟨hp1, _⟩ := List.of_mem_zip hp
      obtain ⟨l, hl, hpl⟩ := List.mem_flatten.mp hp1
      obtain ⟨b, hb, rfl⟩ := List.mem_map.mp hl
      simp [hlab b hb p.1 hpl]
    have hroc : roc_auc_pairs (((bs.map fun b => b.2).flatten).zip
        ((bs.map fun b => b.1).flatten)) = Except.error PyErr.valueError := by
      rw [roc_auc_pairs, if_pos (Or.inr (by rw [hnegnil]; rfl))]
    have hdeg : degenerateZero (bs.map fun b => b.2) = Except.ok 0 := by
      obtain ⟨b0, bs', rfl⟩ := List.exists_cons_of_ne_nil hne
      rfl
    simp only [ROCScore.compute, hc1, hc2, hroc, hdeg]
  · intro bs hne
    rw [runF1_eq]
    show F1Score.compute ⟨bs.map (fun b => b.2), bs.map (fun b => b.1.map sigmoidThresh)⟩
        = Except.ok (f1_pairs
            ((((⟨bs.map (fun b => b.2), bs.map (fun b => b.1.map sigmoidThresh)⟩ : F1Score)).y_trues.flatten).zip
              (((⟨bs.map (fun b => b.2), bs.map (fun b => b.1.map sigmoidThresh)⟩ : F1Score)).y_preds.flatten)))
    have hbs : bs.length ≠ 0 := fun h => hne (List.length_eq_zero.mp h)
    have hc1 : npConcatenate (bs.map fun b => b.2)
        = Except.ok ((bs.map fun b => b.2).flatten) := by
      rw [npConcatenate, if_neg (by simpa using hbs)]
    have hc2 : npConcatenate (bs.map fun b => b.1.map sigmoidThresh)
        = Except.ok ((bs.map fun b => b.1.map sigmoidThresh).flatten) := by
      rw [npConcatenate, if_neg (by simpa using hbs)]
    simp only [F1Score.compute, hc1, hc2]

theorem C5_amended_witness :
    ([([2], [1])] : List (List ℚ × List ℚ)) ≠ []
    ∧ (∀ b ∈ ([([2], [1])] : List (List ℚ × List ℚ)), ∀ y ∈ b.2, y = 1)
    ∧ ROCScore.compute (runROC ROCScore.init [([2], [1])]) = Except.ok 0
    ∧ F1Score.compute (runF1 F1Score.init [([2], [1])])
        = Except.ok (f1_pairs
            (((runF1 F1Score.init [([2], [1])]).y_trues.flatten).zip
              ((runF1 F1Score.init [([2], [1])]).y_preds.flatten))) := by
  refine ⟨by simp, by simp, ?_, ?_⟩
  · exact C5_amended.1 [([2], [1])] (by simp) (by simp)
  · exact C5_amended.2 [([2], [1])] (by simp)

theorem zip_flatten_batches {α : Type} (f g : α → List ℚ) :
    ∀ bs : List α, (∀ b ∈ bs, (f b).length = (g b).length) →
      ((bs.map f).flatten).zip ((bs.map g).flatten)
        = (bs.map (fun b => (f b).zip (g b))).flatten := by
  intro bs
  induction bs with
  | nil => intro _; rfl
  | cons b bs ih =>
    intro h
    simp only [List.map_cons, List.flatten_cons]
    rw [List.zip_append (h b (List.mem_cons_self b bs))]
    rw [ih (fun x hx => h x (List.mem_cons_of_mem b hx))]

theorem rocNum_perm {pos1 pos2 neg1 neg2 : List ℚ}
    (hp : pos1.Perm pos2) (hn : neg1.Perm neg2) :
    rocNum pos1 neg1 = rocNum pos2 neg2 := by
  rw [rocNum, rocNum]
  have hfun : (fun p => ((neg1.map (fun n => rocCmp p n)).sum))
      = (fun p => ((neg2.map (fun n => rocCmp p n)).sum)) := by
    funext p
    exact (hn.map (fun n => rocCmp p n)).sum_eq
  rw [hfun]
  exact (hp.map _).sum_eq

theorem roc_auc_pairs_perm {p1 p2 : List (ℚ × ℚ)} (h : p1.Perm p2) :
    roc_auc_pairs p1 = roc_auc_pairs p2 := by
  have hpos : (rocPos p1).Perm (rocPos p2) := (h.filter _).map _
  have hneg : (rocNeg p1).Perm (rocNeg p2) := (h.filter _).map _
  rw [roc_auc_pairs, roc_auc_pairs, hpos.length_eq, hneg.length_eq]
  by_cases hc : (rocPos p2).length = 0 ∨ (rocNeg p2).length = 0
  · rw [if_pos hc, if_pos hc]
  · rw [if_neg hc, if_neg hc, rocNum_perm hpos hneg]

theorem f1_pairs_perm {p1 p2 : List (ℚ × ℚ)} (h : p1.Perm p2) :
    f1_pairs p1 = f1_pairs p2 := by
  rw [f1_pairs, f1_pairs, h.countP_eq, h.countP_eq, h.countP_eq]

/-- C7: permuting the update calls of an epoch leaves `compute()` unchanged
for `Accuracy` (on shape-consistent batches), `Scalar`, `ROCScore` and
`F1Score`. -/
theorem C7_order_independence :
    (∀ bs1 bs2 : List (List (List ℚ) × List ℤ), bs1.Perm bs2 →
      (∀ b ∈ bs1, b.1.length = b.2.length) →
      (runAccuracy Accuracy.init bs1).map Accuracy.compute
        = (runAccuracy Accuracy.init bs2).map Accuracy.compute)
    ∧ (∀ vs1 vs2 : List ℚ, vs1.Perm vs2 →
        Scalar.compute (runScalar Scalar.init vs1) = Scalar.compute (runScalar Scalar.init vs2))
    ∧ (∀ bs1 bs2 : List (List ℚ × List ℚ), bs1.Perm bs2 →
        (∀ b ∈ bs1, b.1.length = b.2.length) →
        ROCScore.compute (runROC ROCScore.init bs1)
          = ROCScore.compute (runROC ROCScore.init bs2))
    ∧ (∀ bs1 bs2 : List (List ℚ × List ℚ), bs1.Perm bs2 →
        (∀ b ∈ bs1, b.1.length = b.2.length) →
        F1Score.compute (runF1 F1Score.init bs1)
          = F1Score.compute (runF1 F1Score.init bs2)) := by
  refine ⟨?_, ?_, ?_, ?_⟩
  · intro bs1 bs2 hp hwf
    have hwf2 : ∀ b ∈ bs2, b.1.length = b.2.length := fun b hb => hwf b (hp.mem_iff.mpr hb)
    rw [runAccuracy_eq bs1 Accuracy.init hwf, runAccuracy_eq bs2 Accuracy.init hwf2]
    rw [(hp.map (fun b => (accMatches b : ℚ))).sum_eq,
      (hp.map (fun b => ((accValid b).length : ℚ))).sum_eq]
  · intro vs1 vs2 hp
    rw [runScalar_eq vs1 Scalar.init, runScalar_eq vs2 Scalar.init, hp.sum_eq, hp.length_eq]
  · intro bs1 bs2 hp hwf
    have hwf2 : ∀ b ∈ bs2, b.1.length = b.2.length := fun b hb => hwf b (hp.mem_iff.mpr hb)
    by_cases hnil : bs1 = []
    · subst hnil
      rw [hp.symm.eq_nil]
    · have hnil2 : bs2 ≠ [] := fun h => hnil ((h ▸ hp).eq_nil)
      rw [runROC_eq bs1 ROCScore.init, runROC_eq bs2 ROCScore.init]
      show ROCScore.compute ⟨bs1.map (fun b => b.2), bs1.map (fun b => b.1)⟩
          = ROCScore.compute ⟨bs2.map (fun b => b.2), bs2.map (fun b => b.1)⟩
      have hbs1 : bs1.length ≠ 0 := fun h => hnil (List.length_eq_zero.mp h)
      have hbs2 : bs2.length ≠ 0 := fun h => hnil2 (List.length_eq_zero.mp h)
      have hc11 : npConcatenate (bs1.map fun b => b.2)
          = Except.ok ((bs1.map fun b => b.2).flatten) := by
        rw [npConcatenate, if_neg (by simpa using hbs1)]
      have hc12 : npConcatenate (bs1.map fun b => b.1)
          = Except.ok ((bs1.map fun b => b.1).flatten) := by
        rw [npConcatenate, if_neg (by simpa using hbs1)]
      have hc21 : npConcatenate (bs2.map fun b => b.2)
          = Except.ok ((bs2.map fun b => b.2).flatten) := by
        rw [npConcatenate, if_neg (by simpa using hbs2)]
      have hc22 : npConcatenate (bs2.map fun b => b.1)
          = Except.ok ((bs2.map fun b => b.1).flatten) := by
        rw [npConcatenate, if_neg (by simpa using hbs2)]
      have hz1 := zip_flatten_batches (fun b => b.2) (fun b => b.1) bs1
        (fun b hb => (hwf b hb).symm)
      have hz2 := zip_flatten_batches (fun b => b.2) (fun b => b.1) bs2
        (fun b hb => (hwf2 b hb).symm)
      have hpp : ((bs1.map (fun b => b.2.zip b.1)).flatten).Perm
          ((bs2.map (fun b => b.2.zip b.1)).flatten) := (hp.map _).flatten
      have hro : roc_auc_pairs (((bs1.map fun b => b.2).flatten).zip
            ((bs1.map fun b => b.1).flatten))
          = roc_auc_pairs (((bs2.map fun b => b.2).flatten).zip
            ((bs2.map fun b => b.1).flatten)) := by
        rw [hz1, hz2]
        exact roc_auc_pairs_perm hpp
      have hdeg1 : degenerateZero (bs1.map fun b => b.2) = Except.ok 0 := by
        obtain ⟨b0, bs', rfl⟩ := List.exists_cons_of_ne_nil hnil
        rfl
      have hdeg2 : degenerateZero (bs2.map fun b => b.2) = Except.ok 0 := by
        obtain ⟨b0, bs', rfl⟩ := List.exists_cons_of_ne_nil hnil2
        rfl
      simp only [ROCScore.compute, hc11, hc12, hc21, hc22, hro, hdeg1, hdeg2]
  · intro bs1 bs2 hp hwf
    have hwf2 : ∀ b ∈ bs2, b.1.length = b.2.length := fun b hb => hwf b (hp.mem_iff.mpr hb)
    by_cases hnil : bs1 = []
    · subst hnil
      rw [hp.symm.eq_nil]
    · have hnil2 : bs2 ≠ [] := fun h => hnil ((h ▸ hp).eq_nil)
      rw [runF1_eq bs1 F1Score.init, runF1_eq bs2 F1Score.init]
      show F1Score.compute ⟨bs1.map (fun b => b.2), bs1.map (fun b => b.1.map sigmoidThresh)⟩
          = F1Score.compute ⟨bs2.map (fun b => b.2), bs2.map (fun b => b.1.map sigmoidThresh)⟩
      have hbs1 : bs1.length ≠ 0 := fun h => hnil (List.length_eq_zero.mp h)
      have hbs2 : bs2.length ≠ 0 := fun h => hnil2 (List.length_eq_zero.mp h)
      have hc11 : npConcatenate (bs1.map fun b => b.2)
          = Except.ok ((bs1.map fun b => b.2).flatten) := by
        rw [npConcatenate, if_neg (by simpa using hbs1)]
      have hc12 : npConcatenate (bs1.map fun b => b.1.map sigmoidThresh)
          = Except.ok ((bs1.map fun b => b.1.map sigmoidThresh).flatten) := by
        rw [npConcatenate, if_neg (by simpa using hbs1)]
      have hc21 : npConcatenate (bs2.map fun b => b.2)
          = Except.ok ((bs2.map fun b => b.2).flatten) := by
        rw [npConcatenate, if_neg (by simpa using hbs2)]
      have hc22 : npConcatenate (bs2.map fun b => b.1.map sigmoidThresh)
          = Except.ok ((bs2.map fun b => b.1.map sigmoidThresh).flatten) := by
        rw [npConcatenate, if_neg (by simpa using hbs2)]
      have hz1 := zip_flatten_batches (fun b => b.2) (fun b => b.1.map sigmoidThresh) bs1
        (fun b hb => by simp [hwf b hb])
      have hz2 := zip_flatten_batches (fun b => b.2) (fun b => b.1.map sigmoidThresh) bs2
        (fun b hb => by simp [hwf2 b hb])
      have hpf : ((bs1.map (fun b => b.2.zip (b.1.map sigmoidThresh))).flatten).Perm
          ((bs2.map (fun b => b.2.zip (b.1.map sigmoidThresh))).flatten) := (hp.map _).flatten
      simp only [F1Score.compute, hc11, hc12, hc21, hc22]
      rw [hz1, hz2]
      exact congrArg Except.ok (f1_pairs_perm hpf)

theorem C7_order_independence_witness :
    ([([[0, 1]], [1]), ([[1, 0]], [0])] : List (List (List ℚ) × List ℤ)).Perm
        [([[1, 0]], [0]), ([[0, 1]], [1])]
    ∧ (∀ b ∈ ([([[0, 1]], [1]), ([[1, 0]], [0])] : List (List (List ℚ) × List ℤ)),
        b.1.length = b.2.length)
    ∧ (runAccuracy Accuracy.init [([[0, 1]], [1]), ([[1, 0]], [0])]).map Accuracy.compute
        = (runAccuracy Accuracy.init [([[1, 0]], [0]), ([[0, 1]], [1])]).map Accuracy.compute
    ∧ ([3, 5] : List ℚ).Perm [5, 3]
    ∧ Scalar.compute (runScalar Scalar.init [3, 5]) = Scalar.compute (runScalar Scalar.init [5, 3])
    ∧ ([([1], [1]), ([2], [0])] : List (List ℚ × List ℚ)).Perm [([2], [0]), ([1], [1])]
    ∧ (∀ b ∈ ([([1], [1]), ([2], [0])] : List (List ℚ × List ℚ)), b.1.length = b.2.length)
    ∧ ROCScore.compute (runROC ROCScore.init [([1], [1]), ([2], [0])])
        = ROCScore.compute (runROC ROCScore.init [([2], [0]), ([1], [1])])
    ∧ F1Score.compute (runF1 F1Score.init [([1], [1]), ([2], [0])])
        = F1Score.compute (runF1 F1Score.init [([2], [0]), ([1], [1])]) := by
  have hpa : ([([[0, 1]], [1]), ([[1, 0]], [0])] : List (List (List ℚ) × List ℤ)).Perm
      [([[1, 0]], [0]), ([[0, 1]], [1])] :=
    List.Perm.swap ([[1, 0]], [0]) ([[0, 1]], [1]) []
  have hwa : ∀ b ∈ ([([[0, 1]], [1]), ([[1, 0]], [0])] : List (List (List ℚ) × List ℤ)),
      b.1.length = b.2.length := by simp
  have hps : ([3, 5] : List ℚ).Perm [5, 3] := List.Perm.swap 5 3 []
  have hpr : ([([1], [1]), ([2], [0])] : List (List ℚ × List ℚ)).Perm
      [([2], [0]), ([1], [1])] := List.Perm.swap ([2], [0]) ([1], [1]) []
  have hwr : ∀ b ∈ ([([1], [1]), ([2], [0])] : List (List ℚ × List ℚ)),
      b.1.length = b.2.length := by simp
  exact ⟨hpa, hwa, C7_order_independence.1 _ _ hpa hwa, hps,
    C7_order_independence.2.1 _ _ hps, hpr, hwr,
    C7_order_independence.2.2.1 _ _ hpr hwr, C7_order_independence.2.2.2 _ _ hpr hwr⟩
